import Mathlib

/-!
# Verification of the flickerdb record engine

Shallow embedding of the core of `src/core/flicker.ts` and
`src/utils/TaskQueue.ts`: the per-store FIFO task queue, the
atomic temp-file write/rename pipeline, and the streaming
query/mutation logic (`find`, `findById`, `remove`, `removeById`,
`update`, `updateById`, `add`, `clearAll`).

Modelling conventions:
* A store-file entry is a pair `(id, data)`.  The decoded stream that
  `#readStreamParsing` feeds to the callbacks is a `List (Entry α)` in
  file order (stream-json preserves key order).
* JavaScript numbers used as counters/limits are modelled as `Int`
  (the `limit` option may be `Infinity`, modelled as `none`).
* `Promise` resolution/rejection inside a callback is modelled with
  `Except`: a rejected promise is `Except.error e` carrying the rejection
  value.  A whole mutating operation concludes with an `OpOutcome`, which
  distinguishes a rejection delivered to the caller from a value thrown
  outside the promise chain (from an event listener), which never settles
  the operation's promise.
* `FlickerError` values are modelled by their machine-readable code
  (the human-readable message is elided; callers branch on the code).
* Brace characters inside string literals are written with the escapes
  `\x7b` and `\x7d`.
-/

set_option autoImplicit false

namespace Flicker

universe u v

/-- The `FLICKER_ERROR_CODES` taxonomy of `src/error-handling/flicker.ts`
as used throughout `src/core/flicker.ts`. -/
inductive FlickerErrorCode where
  | SERIALIZATION_ERROR
  | MISSING_FILE
  | FILE_READ_ERROR
  | TEMP_FILE_WRITE_ERROR
  | TEMP_FILE_RENAME_ERROR
  | INVALID_PARAMS
  deriving DecidableEq, Repr

/-- A JavaScript exception value as observed by a caller of the engine:
either a tagged `FlickerError` (identified by its code) or an arbitrary
value thrown by a caller-supplied callback. -/
inductive JsError (ε : Type u) where
  | flicker (code : FlickerErrorCode)
  | user (value : ε)
  deriving DecidableEq, Repr

/-- A decoded store-file entry `{ id, data }`. -/
abbrev Entry (α : Type u) := String × α

/-- The parsed view of the store file: `#readStreamParsing` decodes the
key/value pairs of the serialized object, in file order.  The store file
itself is kept as a `List (String × String)` of serialized pairs and
`parse` is the JSON decoding of one value. -/
def parseStore {α : Type u} (parse : String → α) (store : List (String × String)) :
    List (Entry α) :=
  store.map fun p => (p.1, parse p.2)

/-! ## find (`flicker.ts`, `find`) -/

/-- The `limit <= 0` short-circuit check at the top of `find`
(`limit` defaults to `Infinity`, modelled as `none`). -/
def limitNonPositive : Option Int → Bool
  | none => false
  | some l => decide (l ≤ 0)

/-- `const usableOffset = offset < 0 ? 0 : offset;` -/
def usableOffset (offset : Int) : Int :=
  if offset < 0 then 0 else offset

/-- The body of the `#readStreamParsing` callback of `find`, iterated over
the decoded entries in file order.  State: `matched` counts matches seen,
`acc` is the `entries` array.  Returning early models `destroy()`; the
second component of the result is `wereThereMatchesLeft`. -/
def findScan {α : Type u} (matcher : Entry α → Bool) (limit : Option Int)
    (uOffset : Int) (holdTillMatch : Bool) :
    List (Entry α) → Int → List (Entry α) → List (Entry α) × Bool
  | [], _, acc => (acc, false)
  | e :: rest, matched, acc =>
    let doesExceedLimit : Bool :=
      match limit with
      | none => false
      | some l => decide ((acc.length : Int) ≥ l)
    if !holdTillMatch && doesExceedLimit then (acc, false)
    else if !(matcher e) then findScan matcher limit uOffset holdTillMatch rest matched acc
    else if doesExceedLimit then (acc, true)
    else if matched + 1 > uOffset then
      findScan matcher limit uOffset holdTillMatch rest (matched + 1) (acc ++ [e])
    else findScan matcher limit uOffset holdTillMatch rest (matched + 1) acc

/-- `find(matcher, { limit, offset, holdTillMatch })` on the decoded
entries of the store file.  Resolves with `none` (JS `undefined`) when no
entry was retained, and otherwise with the retained entries and the
`wereThereMatchesLeft` flag. -/
def find {α : Type u} (matcher : Entry α → Bool) (limit : Option Int)
    (offset : Int) (holdTillMatch : Bool) (entries : List (Entry α)) :
    Option (List (Entry α) × Bool) :=
  if limitNonPositive limit then none
  else
    let r := findScan matcher limit (usableOffset offset) holdTillMatch entries 0 []
    if r.1.length = 0 then none else some r

/-- The entries `find` retains (the `entries` array at resolution time);
empty when the `limit <= 0` short-circuit fires. -/
def findRetained {α : Type u} (matcher : Entry α → Bool) (limit : Option Int)
    (offset : Int) (holdTillMatch : Bool) (entries : List (Entry α)) :
    List (Entry α) :=
  if limitNonPositive limit then []
  else (findScan matcher limit (usableOffset offset) holdTillMatch entries 0 []).1

/-- `findById(id)`: `find` with an id-equality matcher and `limit: 1`,
unwrapped to the data of the single retained entry. -/
def findById {α : Type u} (id : String) (entries : List (Entry α)) : Option α :=
  match find (fun e => e.1 == id) (some 1) 0 false entries with
  | some (e :: _, _) => some e.2
  | some ([], _) => none
  | none => none

/-! ## remove (`flicker.ts`, `remove`) -/

/-- The body of the `#readStreamParsing` callback of `remove`, iterated
over the decoded entries.  State: `removed` is `removedEntries`,
`prevFormatted` is `prevFormattedEntry` (initially the string
`"\x7b"`), `written` is the text written to the temp file so far.  At end
of stream the final `tempFile.end(prevFormattedEntry + closing-brace)`
is appended. -/
def removeScan {α : Type u} (stringify : α → String) (matcher : Entry α → Bool) :
    List (Entry α) → Nat → String → String → Nat × String
  | [], removed, prevFormatted, written => (removed, written ++ prevFormatted ++ "\x7d")
  | e :: rest, removed, prevFormatted, written =>
    if matcher e then removeScan stringify matcher rest (removed + 1) prevFormatted written
    else
      let jsonData := stringify e.2
      let next :=
        if prevFormatted = "\x7b" then "\x7b\"" ++ e.1 ++ "\":" ++ jsonData
        else ",\"" ++ e.1 ++ "\":" ++ jsonData
      removeScan stringify matcher rest removed next (written ++ prevFormatted)

/-- `removedEntries` after the streaming pass of `remove`. -/
def removeCount {α : Type u} (matcher : Entry α → Bool) (entries : List (Entry α)) : Nat :=
  (entries.filter matcher).length

/-- The full text `remove` writes to the temp file (which the rename then
installs as the store file). -/
def removeContent {α : Type u} (stringify : α → String) (matcher : Entry α → Bool)
    (entries : List (Entry α)) : String :=
  (removeScan stringify matcher entries 0 "\x7b" "").2

/-- The value the `remove` promise resolves with:
`undefined` (`none`) when `removedEntries === 0`, the count otherwise. -/
def removeResult {α : Type u} (stringify : α → String) (matcher : Entry α → Bool)
    (entries : List (Entry α)) : Option Nat :=
  let n := (removeScan stringify matcher entries 0 "\x7b" "").1
  if n = 0 then none else some n

/-- The key/value pairs `remove` writes through to the temp file: exactly
the non-matching entries, re-serialized from their decoded data, in file
order (read off the same loop as `removeScan`). -/
def removeKept {α : Type u} (stringify : α → String) (matcher : Entry α → Bool) :
    List (Entry α) → List (String × String)
  | [] => []
  | e :: rest =>
    if matcher e then removeKept stringify matcher rest
    else (e.1, stringify e.2) :: removeKept stringify matcher rest

/-- `removeById(id)`: `remove` with an id-equality matcher; the falsy
result check `if (!removedEntry) return; return true;`. -/
def removeById {α : Type u} (stringify : α → String) (id : String)
    (entries : List (Entry α)) : Option Bool :=
  match removeResult stringify (fun e => e.1 == id) entries with
  | none => none
  | some n => if n = 0 then none else some true

/-! ## update (`flicker.ts`, `update`) -/

/-- The body of the `#readStreamParsing` callback of `update`: for each
entry the modifier `fn` is invoked; `none` (JS `undefined`) keeps the
re-serialized original data, `some d` serializes the replacement and
increments `updatedEntries`.  Same delayed-write scheme as `remove`. -/
def updateScan {α : Type u} (stringify : α → String) (fn : Entry α → Option α) :
    List (Entry α) → Nat → String → String → Nat × String
  | [], updated, prevFormatted, written => (updated, written ++ prevFormatted ++ "\x7d")
  | e :: rest, updated, prevFormatted, written =>
    let modifiedData := fn e
    let updated2 := match modifiedData with
      | some _ => updated + 1
      | none => updated
    let jsonData := match modifiedData with
      | some d => stringify d
      | none => stringify e.2
    let next :=
      if prevFormatted = "\x7b" then "\x7b\"" ++ e.1 ++ "\":" ++ jsonData
      else ",\"" ++ e.1 ++ "\":" ++ jsonData
    updateScan stringify fn rest updated2 next (written ++ prevFormatted)

/-- The full text `update` writes to the temp file. -/
def updateContent {α : Type u} (stringify : α → String) (fn : Entry α → Option α)
    (entries : List (Entry α)) : String :=
  (updateScan stringify fn entries 0 "\x7b" "").2

/-- `updatedEntries` after the streaming pass of `update`. -/
def updateCount {α : Type u} (fn : Entry α → Option α) (entries : List (Entry α)) : Nat :=
  (entries.filter fun e => (fn e).isSome).length

/-- The value the `update` promise resolves with:
`undefined` (`none`) when `updatedEntries === 0`, the count otherwise. -/
def updateResult {α : Type u} (stringify : α → String) (fn : Entry α → Option α)
    (entries : List (Entry α)) : Option Nat :=
  let n := (updateScan stringify fn entries 0 "\x7b" "").1
  if n = 0 then none else some n

/-- `updateById(id, modifier)`: `update` restricted to the matching id;
the falsy result check `if (!updatedEntry) return; return true;`. -/
def updateById {α : Type u} (stringify : α → String) (id : String)
    (modifier : α → α) (entries : List (Entry α)) : Option Bool :=
  match updateResult stringify
      (fun e => if e.1 == id then some (modifier e.2) else none) entries with
  | none => none
  | some n => if n = 0 then none else some true

/-! ## add (`flicker.ts`, `add`) -/

/-- The canonical serialized form of a store file holding the given
entries, as produced by `clearAll` (empty) and maintained by `add`:
a single object whose pairs are written as quoted id, colon, serialized
value, comma-separated, with no whitespace. -/
def canonicalContent {α : Type u} (stringify : α → String) (entries : List (Entry α)) :
    String :=
  "\x7b" ++ String.intercalate ","
    (entries.map fun e => "\"" ++ e.1 ++ "\":" ++ stringify e.2) ++ "\x7d"

/-- The raw-chunk splice `add` performs on the store-file text: every
chunk is forwarded verbatim except that the final character (the closing
brace) is replaced by the new serialized pairs; a separating comma is
inserted iff the total length read exceeds 2 (a non-empty object). -/
def addContent (fileContent : String) (newPairs : List (String × String)) : String :=
  let formattedEntries := String.intercalate ","
    (newPairs.map fun p => "\"" ++ p.1 ++ "\":" ++ p.2)
  let newChunk :=
    (if fileContent.length > 2 then "," else "") ++ formattedEntries ++ "\x7d"
  fileContent.dropRight 1 ++ newChunk

/-- The pair-level effect of `add`: one freshly generated id per record
(`ids` is the `randomUUID()` supply, in generation order), zipped
positionally with the serialized records and appended after the existing
pairs.  `add` resolves with `ids` itself. -/
def addPairs {α : Type u} (stringify : α → String) (ids : List String)
    (records : List α) (store : List (String × String)) : List (String × String) :=
  store ++ ids.zip (records.map stringify)

/-! ## Atomic writer (`flicker.ts`, `#tempFileWriteOperation`, `#rename`)

The filesystem state visible to one store handle: the store file and the
temp file (`none` = the file does not exist). -/

structure FS where
  store : Option String
  temp : Option String
  deriving DecidableEq, Repr

/-- How a mutating operation concludes from the caller's point of view:
the operation's promise resolves (`ok`), the promise rejects with an
error value the caller can catch and branch on (`rejected`), or a value
is thrown outside the promise chain — from inside an event listener — so
the operation's promise never settles and the error escapes as a
process-level uncaught exception (`uncaught`). -/
inductive OpOutcome (ε : Type u) where
  | ok
  | rejected (e : JsError ε)
  | uncaught (e : JsError ε)
  deriving DecidableEq, Repr

/-- `#tempFileWriteOperation(cb)`.  `cb` consumes the store-file content
(it reads via `#readStream`/`#readStreamParsing`, so a missing file or a
read error is a `cb` failure) and produces the full text written to the
temp file, or fails.  `writeOk` models whether the temp-file write stream
itself succeeds; `renameOk` models whether the final `fs.rename`
succeeds.  On a write-stream failure (`writeOk = false`) the handler
attached with `.on('error', ...)` throws a `TEMP_FILE_WRITE_ERROR`
tagged `FlickerError` from inside the event listener: that throw is not
inside the `try` around `await cb(...)`, so the catch-block `fs.unlink`
never runs and the operation's promise is never settled — the temp file
(created by `createWriteStream`, holding whatever bytes were flushed,
`partialWritten`) remains and the error is a process-level uncaught
exception.  On `cb` failure the temp file is unlinked and the promise
rejects with the very same error; on rename failure `#rename` rejects
with a `TEMP_FILE_RENAME_ERROR` tagged error and no cleanup runs. -/
def tempFileWriteOperation {ε : Type u} (fs : FS)
    (cb : Option String → Except (JsError ε) String)
    (writeOk : Bool) (partialWritten : String) (renameOk : Bool) : FS × OpOutcome ε :=
  if writeOk then
    match cb fs.store with
    | Except.error e => ({ store := fs.store, temp := none }, OpOutcome.rejected e)
    | Except.ok content =>
      if renameOk then ({ store := some content, temp := none }, OpOutcome.ok)
      else
        ({ store := fs.store, temp := some content },
          OpOutcome.rejected (JsError.flicker FlickerErrorCode.TEMP_FILE_RENAME_ERROR))
  else
    ({ store := fs.store, temp := some partialWritten },
      OpOutcome.uncaught (JsError.flicker FlickerErrorCode.TEMP_FILE_WRITE_ERROR))

/-- `clearAll()`: writes the empty object to the temp file directly
(`fs.writeFile`), then renames it over the store file.  Unlike the
stream path, `fs.writeFile`'s completion callback genuinely `reject`s
the promise with a `TEMP_FILE_WRITE_ERROR` tagged error on failure, and
no cleanup runs — the state of the temp path after the failed `writeFile`
is environment-dependent (`tempAfterWriteFail`).  A rename failure
rejects with `TEMP_FILE_RENAME_ERROR`, leaving the fully written temp
file behind. -/
def clearAll (ε : Type u) (fs : FS) (writeOk : Bool)
    (tempAfterWriteFail : Option String) (renameOk : Bool) : FS × OpOutcome ε :=
  if writeOk then
    if renameOk then ({ store := some "\x7b\x7d", temp := none }, OpOutcome.ok)
    else
      ({ store := fs.store, temp := some "\x7b\x7d" },
        OpOutcome.rejected (JsError.flicker FlickerErrorCode.TEMP_FILE_RENAME_ERROR))
  else ({ store := fs.store, temp := tempAfterWriteFail },
    OpOutcome.rejected (JsError.flicker FlickerErrorCode.TEMP_FILE_WRITE_ERROR))

/-- The serializer wrapper installed in the constructor (`#stringify`):
any exception from the caller-supplied serializer is caught and replaced
by a `SERIALIZATION_ERROR` tagged `FlickerError`. -/
def stringifyWrapped {α : Type u} {ε : Type u} (stringify : α → Except ε String)
    (d : α) : Except (JsError ε) String :=
  match stringify d with
  | Except.ok s => Except.ok s
  | Except.error _ => Except.error (JsError.flicker FlickerErrorCode.SERIALIZATION_ERROR)

/-- The error path of `#readStreamParsing`: the parsed entries are fed to
the callback in file order; per entry the callback either continues
(`ok true`), calls `destroy()` to stop the stream early (`ok false`), or
throws, in which case the stream is destroyed and the promise rejects
with the very same thrown value. -/
def streamEntries {β : Type u} {ε : Type u} (cb : Entry β → Except (JsError ε) Bool) :
    List (Entry β) → Except (JsError ε) Unit
  | [] => Except.ok ()
  | e :: rest =>
    match cb e with
    | Except.ok true => streamEntries cb rest
    | Except.ok false => Except.ok ()
    | Except.error err => Except.error err

/-! ## Task queue (`TaskQueue.ts`) -/

/-- The value a queued engine task resolves with: `add` resolves with the
generated id list, `remove` with the removed-entry count (or absent). -/
inductive TaskResult where
  | ids (l : List String)
  | count (n : Option Nat)
  deriving DecidableEq, Repr

/-- The `add` task enqueued by `add(records)`: rewrites the store file
with the new pairs appended and resolves with the generated ids. -/
def addTaskFn {α : Type} (stringify : α → String) (ids : List String)
    (records : List α) : List (String × String) → List (String × String) × TaskResult :=
  fun s => (addPairs stringify ids records s, TaskResult.ids ids)

/-- The `remove` task enqueued by `remove(matcher)`: rewrites the store
file keeping only the non-matching entries and resolves with the count
(or absent). -/
def removeTaskFn {α : Type} (parse : String → α) (stringify : α → String)
    (matcher : Entry α → Bool) :
    List (String × String) → List (String × String) × TaskResult :=
  fun s => (removeKept stringify matcher (parseStore parse s),
    TaskResult.count (removeResult stringify matcher (parseStore parse s)))

/-- `#processQueue`: tasks are shifted from the front of the queue and
run to completion one at a time, each `resolve(await fn())` finishing
before the next task starts.  A task is a state transformer on the
store state `σ` returning a result `ρ`; the queue threads the state
through the tasks in submission order and collects the results. -/
def processQueue {σ : Type u} {ρ : Type v} : List (σ → σ × ρ) → σ → σ × List ρ
  | [], s => (s, [])
  | t :: ts, s =>
    let r := t s
    let rest := processQueue ts r.1
    (rest.1, r.2 :: rest.2)

/-! ## Helper lemmas -/

section Lemmas

variable {β : Type}

lemma removeScan_fst (stringify : β → String) (matcher : Entry β → Bool) :
    ∀ (l : List (Entry β)) (n : Nat) (prev written : String),
      (removeScan stringify matcher l n prev written).1 = n + (l.filter matcher).length := by
  intro l
  induction l with
  | nil => intro n prev written; simp [removeScan]
  | cons e rest ih =>
    intro n prev written
    by_cases h : matcher e = true
    · simp [removeScan, h, ih, List.filter_cons]
      omega
    · simp at h
      simp [removeScan, h, ih, List.filter_cons]

lemma updateScan_fst (stringify : β → String) (fn : Entry β → Option β) :
    ∀ (l : List (Entry β)) (n : Nat) (prev written : String),
      (updateScan stringify fn l n prev written).1
        = n + (l.filter fun e => (fn e).isSome).length := by
  intro l
  induction l with
  | nil => intro n prev written; simp [updateScan]
  | cons e rest ih =>
    intro n prev written
    cases h : fn e with
    | none => simp [updateScan, h, ih, List.filter_cons]
    | some d =>
      simp [updateScan, h, ih, List.filter_cons]
      omega

lemma find_eq_none_iff (matcher : Entry β → Bool) (limit : Option Int) (offset : Int)
    (hold : Bool) (entries : List (Entry β)) :
    find matcher limit offset hold entries = none
      ↔ findRetained matcher limit offset hold entries = [] := by
  unfold find findRetained
  by_cases h : limitNonPositive limit = true
  · simp [h]
  · simp at h
    simp [h, List.length_eq_zero]

lemma find_eq_some (matcher : Entry β → Bool) (limit : Option Int) (offset : Int)
    (hold : Bool) (entries : List (Entry β)) (r : List (Entry β) × Bool)
    (hr : find matcher limit offset hold entries = some r) :
    r.1 = findRetained matcher limit offset hold entries ∧ r.1 ≠ [] := by
  unfold find at hr
  unfold findRetained
  by_cases h : limitNonPositive limit = true
  · simp [h] at hr
  · simp at h
    simp [h] at hr ⊢
    rcases hr with ⟨h1, h2⟩
    subst h2
    exact ⟨rfl, by simpa [← List.length_eq_zero] using h1⟩

lemma findScan_one_acc (m : Entry β → Bool) (e : Entry β) :
    ∀ (rest : List (Entry β)) (matched : Int),
      findScan m (some 1) 0 false rest matched [e] = ([e], false) := by
  intro rest matched
  cases rest with
  | nil => rfl
  | cons e2 rest2 => simp [findScan]

lemma findScan_limit_one (m : Entry β → Bool) :
    ∀ l : List (Entry β),
      findScan m (some 1) 0 false l 0 []
        = match l.find? m with
          | some e => ([e], false)
          | none => ([], false) := by
  intro l
  induction l with
  | nil => rfl
  | cons e rest ih =>
    by_cases h : m e = true
    · simp [findScan, h, List.find?_cons_of_pos _ h, findScan_one_acc]
    · simp at h
      have hcons : (e :: rest).find? m = rest.find? m :=
        List.find?_cons_of_neg _ (by simp [h])
      simp [findScan, h, hcons, ih]

lemma find_limit_one (m : Entry β → Bool) (l : List (Entry β)) :
    find m (some 1) 0 false l = (l.find? m).map (fun e => ([e], false)) := by
  unfold find
  rw [show usableOffset 0 = 0 from rfl, findScan_limit_one m l]
  rcases hf : l.find? m with _ | e
  · simp [limitNonPositive, hf]
  · simp [limitNonPositive, hf]

lemma findById_eq_find? (id : String) (l : List (Entry β)) :
    findById id l = (l.find? (fun e => e.1 == id)).map Prod.snd := by
  unfold findById
  rw [find_limit_one]
  rcases hf : l.find? (fun e => e.1 == id) with _ | e <;> simp [hf]

lemma parseStore_zip (parse : String → β) :
    ∀ (ids : List String) (vs : List String),
      parseStore parse (ids.zip vs) = ids.zip (vs.map parse) := by
  intro ids
  induction ids with
  | nil => intro vs; simp [parseStore]
  | cons id0 rest ih =>
    intro vs
    rcases vs with _ | ⟨v0, vrest⟩
    · simp [parseStore]
    · simpa [parseStore, List.zip_cons_cons] using ih vrest

lemma find?_zip_get :
    ∀ (ids : List String) (ws : List β) (i : Nat)
      (hi : i < ids.length) (hiw : i < ws.length), ids.Nodup →
      (ids.zip ws).find? (fun e => e.1 == ids.get ⟨i, hi⟩)
        = some (ids.get ⟨i, hi⟩, ws.get ⟨i, hiw⟩) := by
  intro ids
  induction ids with
  | nil => intro ws i hi; exact absurd hi (by simp)
  | cons id0 rest ih =>
    intro ws i hi hiw hnd
    rcases ws with _ | ⟨w0, wrest⟩
    · exact absurd hiw (by simp)
    · have hnd2 : id0 ∉ rest ∧ rest.Nodup := by simpa [List.nodup_cons] using hnd
      rcases i with _ | j
      · have h0 : ((id0, w0) : Entry β).1 == (id0 :: rest).get ⟨0, hi⟩ := by simp
        simp [List.zip_cons_cons, List.find?_cons_of_pos _ h0]
      · have hj : j < rest.length := by simpa using hi
        have hjw : j < wrest.length := by simpa using hiw
        have hget : (id0 :: rest).get ⟨j + 1, hi⟩ = rest.get ⟨j, hj⟩ := rfl
        have hgetw : (w0 :: wrest).get ⟨j + 1, hiw⟩ = wrest.get ⟨j, hjw⟩ := rfl
        have hbe : (id0 == rest.get ⟨j, hj⟩) = false := by
          have hmem : rest.get ⟨j, hj⟩ ∈ rest := rest.get_mem j hj
          have hneq : id0 ≠ rest.get ⟨j, hj⟩ := by
            rintro heq
            exact hnd2.1 (heq ▸ hmem)
          simpa using hneq
        rw [hget, hgetw, List.zip_cons_cons, List.find?_cons]
        simp only [hbe]
        exact ih wrest j hj hjw hnd2.2

lemma findById_addPairs (parse : String → β) (stringify : β → String)
    (store : List (String × String)) (ids : List String) (records : List β)
    (i : Nat) (hi : i < ids.length) (hir : i < records.length)
    (hnd : ids.Nodup) (hfresh : ∀ id ∈ ids, ∀ p ∈ store, p.1 ≠ id) :
    findById (ids.get ⟨i, hi⟩) (parseStore parse (addPairs stringify ids records store))
      = some (parse (stringify (records.get ⟨i, hir⟩))) := by
  rw [findById_eq_find?]
  unfold addPairs parseStore
  rw [List.map_append, List.find?_append]
  have hnone : (store.map fun p => (p.1, parse p.2)).find?
      (fun e => e.1 == ids.get ⟨i, hi⟩) = none := by
    apply List.find?_eq_none.mpr
    rintro ⟨k, v⟩ hmem
    simp only [List.mem_map] at hmem
    rcases hmem with ⟨p, hp, hpk⟩
    have hk : p.1 = k := by simpa using congrArg Prod.fst hpk
    have hne : p.1 ≠ ids.get ⟨i, hi⟩ :=
      hfresh (ids.get ⟨i, hi⟩) (ids.get_mem i hi) p hp
    simpa [hk] using fun heq => hne (hk ▸ heq)
  rw [hnone]
  have hzip := parseStore_zip parse ids (records.map stringify)
  unfold parseStore at hzip
  rw [hzip, List.map_map]
  have hiw : i < ((records.map (parse ∘ stringify)).length) := by simpa using hir
  rw [find?_zip_get ids (records.map (parse ∘ stringify)) i hi hiw hnd]
  have hw : (records.map (parse ∘ stringify)).get ⟨i, hiw⟩
      = parse (stringify (records.get ⟨i, hir⟩)) := by
    simp
  simp [hw]

lemma removeKept_mem (stringify : β → String) (matcher : Entry β → Bool) :
    ∀ (l : List (Entry β)) (p : String × String), p ∈ removeKept stringify matcher l →
      ∃ e ∈ l, matcher e = false ∧ p = (e.1, stringify e.2) := by
  intro l
  induction l with
  | nil => intro p hp; simp [removeKept] at hp
  | cons e rest ih =>
    intro p hp
    by_cases h : matcher e = true
    · simp only [removeKept, h, if_pos] at hp
      rcases ih p hp with ⟨e2, he2, hm, hpe⟩
      exact ⟨e2, List.mem_cons_of_mem e he2, hm, hpe⟩
    · simp at h
      simp only [removeKept, h, Bool.false_eq_true, if_neg, not_false_iff,
        List.mem_cons] at hp
      rcases hp with hp | hp
      · exact ⟨e, List.mem_cons_self e rest, h, hp⟩
      · rcases ih p hp with ⟨e2, he2, hm, hpe⟩
        exact ⟨e2, List.mem_cons_of_mem e he2, hm, hpe⟩

end Lemmas

/-! ## Claims -/

/-- C3: for a store holding 5 entries a..e that all satisfy the matcher,
`find(matchAll, {limit:2, offset:1})` returns exactly `[b, c]`;
`find(matchAll, {limit:2, holdTillMatch:true})` returns `[a, b]` with
`wereThereMatchesLeft = true` (the extra matching entry found past the
limit is not added to the result); `find(matchAll, {limit:2,
holdTillMatch:false})` returns `[a, b]` with
`wereThereMatchesLeft = false`. -/
theorem find_offset_limit_holdTillMatch {β : Type} (a b c d e : Entry β)
    (m : Entry β → Bool) (h : ∀ x ∈ [a, b, c, d, e], m x = true) :
    find m (some 2) 1 false [a, b, c, d, e] = some ([b, c], false) ∧
    find m (some 2) 0 true [a, b, c, d, e] = some ([a, b], true) ∧
    find m (some 2) 0 false [a, b, c, d, e] = some ([a, b], false) := by
  have ha := h a (by simp)
  have hb := h b (by simp)
  have hc := h c (by simp)
  have hd := h d (by simp)
  have he := h e (by simp)
  refine ⟨?_, ?_, ?_⟩ <;>
    simp [find, findScan, limitNonPositive, usableOffset, ha, hb, hc, hd, he]

/-- Witness for C3: the three scenarios evaluated on a concrete
five-entry store with an all-true matcher. -/
theorem find_offset_limit_holdTillMatch_check :
    find (fun _ => true) (some 2) 1 false
        [("1", (1:Nat)), ("2", 2), ("3", 3), ("4", 4), ("5", 5)]
      = some ([("2", 2), ("3", 3)], false) :=
  (find_offset_limit_holdTillMatch ("1", (1:Nat)) ("2", 2) ("3", 3) ("4", 4) ("5", 5)
    (fun _ => true) (by simp)).1

/-- C9 (code bug): a staging-file write failure on the
`#tempFileWriteOperation` path used by add/remove/update is *not*
reported to the caller — the `TEMP_FILE_WRITE_ERROR` tagged
`FlickerError` is thrown from inside the write stream's `'error'` event
listener, which never rejects the operation's promise, so the error
escapes as an uncaught exception and the caller cannot branch on it.
Only `clearAll`'s write-failure path (a genuine `reject`) delivers the
tagged error to the caller.  Evaluated at a failing input. -/
theorem temp_write_failure_never_reaches_caller :
    (tempFileWriteOperation (FS.mk (some "\x7b\x7d") none)
        (fun _ => (Except.ok "\x7b\x7d" : Except (JsError Unit) String)) false "" true).2
      = OpOutcome.uncaught (JsError.flicker FlickerErrorCode.TEMP_FILE_WRITE_ERROR) ∧
    (∀ e, (tempFileWriteOperation (FS.mk (some "\x7b\x7d") none)
        (fun _ => (Except.ok "\x7b\x7d" : Except (JsError Unit) String)) false "" true).2
      ≠ OpOutcome.rejected e) ∧
    (clearAll Unit (FS.mk (some "\x7b\x7d") none) false none true).2
      = OpOutcome.rejected (JsError.flicker FlickerErrorCode.TEMP_FILE_WRITE_ERROR) :=
  ⟨rfl, fun _ h => OpOutcome.noConfusion h, rfl⟩

/-- C5 (code bug): `remove(always-false)` and `update(always-absent)` are
specified to rewrite the file byte-identically, but on any store holding
at least one entry the rewrite loop emits the initial open brace *and* a
first formatted entry that itself starts with an open brace, so the
rewritten content gains a stray brace (and is no longer valid JSON).
Evaluated at the failing input: a store whose canonical content is the
single pair with id "a" and serialized value "1". -/
theorem empty_mutation_rewrite_diverges :
    canonicalContent (fun _ : Nat => "1") [("a", 1)] = "\x7b\"a\":1\x7d" ∧
    removeContent (fun _ : Nat => "1") (fun _ => false) [("a", 1)] = "\x7b\x7b\"a\":1\x7d" ∧
    updateContent (fun _ : Nat => "1") (fun _ => none) [("a", 1)] = "\x7b\x7b\"a\":1\x7d" ∧
    removeContent (fun _ : Nat => "1") (fun _ => false) [("a", 1)]
      ≠ canonicalContent (fun _ : Nat => "1") [("a", 1)] ∧
    updateContent (fun _ : Nat => "1") (fun _ => none) [("a", 1)]
      ≠ canonicalContent (fun _ : Nat => "1") [("a", 1)] := by
  refine ⟨rfl, rfl, rfl, by decide, by decide⟩

/-- C6: `remove` and `update` resolve with an absent result (`none`,
distinguishable from the number 0) exactly when zero entries were
removed/updated, and with the positive count otherwise; `find` resolves
with an absent result exactly when zero entries were retained (regardless
of whether later matches existed), and `findById` exactly when its
limit-1 search retained nothing. -/
theorem absent_result_semantics {β : Type} (stringify : β → String)
    (matcher : Entry β → Bool) (fn : Entry β → Option β) (limit : Option Int)
    (offset : Int) (hold : Bool) (id : String) (entries : List (Entry β)) :
    (removeResult stringify matcher entries = none ↔ removeCount matcher entries = 0) ∧
    (∀ n, removeResult stringify matcher entries = some n
      → n = removeCount matcher entries ∧ 0 < n) ∧
    (updateResult stringify fn entries = none ↔ updateCount fn entries = 0) ∧
    (∀ n, updateResult stringify fn entries = some n
      → n = updateCount fn entries ∧ 0 < n) ∧
    (find matcher limit offset hold entries = none
      ↔ findRetained matcher limit offset hold entries = []) ∧
    (∀ r, find matcher limit offset hold entries = some r
      → r.1 = findRetained matcher limit offset hold entries ∧ r.1 ≠ []) ∧
    (findById id entries = none
      ↔ findRetained (fun e => e.1 == id) (some 1) 0 false entries = []) := by
  have hrem := removeScan_fst stringify matcher entries 0 "\x7b" ""
  have hupd := updateScan_fst stringify fn entries 0 "\x7b" ""
  refine ⟨?_, ?_, ?_, ?_, find_eq_none_iff .., ?_, ?_⟩
  · simp [removeResult, removeCount, hrem]
  · intro n hn
    simp only [removeResult, hrem, Nat.zero_add] at hn
    by_cases h0 : (List.filter matcher entries).length = 0
    · simp [h0] at hn
    · simp [h0] at hn
      refine ⟨by simp [removeCount, ← hn], ?_⟩
      omega
  · simp [updateResult, updateCount, hupd]
  · intro n hn
    simp only [updateResult, hupd, Nat.zero_add] at hn
    by_cases h0 : (List.filter (fun e => (fn e).isSome) entries).length = 0
    · simp [h0] at hn
    · simp [h0] at hn
      refine ⟨by simp [updateCount, ← hn], ?_⟩
      omega
  · intro r hr
    exact find_eq_some matcher limit offset hold entries r hr
  · unfold findById
    rcases hf : find (fun e => e.1 == id) (some 1) 0 false entries with _ | ⟨es, w⟩
    · simpa [hf] using (find_eq_none_iff (fun e => e.1 == id) (some 1) 0 false entries).mp hf
    · have h2 := find_eq_some (fun e => e.1 == id) (some 1) 0 false entries (es, w) hf
      rcases es with _ | ⟨e, es⟩
      · simp at h2
      · simp [← h2.1]

/-- Witness for C6: on the one-entry store with an all-true matcher,
`remove` resolves with the count 1, which equals the number of removed
entries and is positive. -/
theorem absent_result_semantics_check :
    (1:Nat) = removeCount (fun _ => true) [("a", (1:Nat))] ∧ 0 < 1 :=
  (absent_result_semantics (fun _ : Nat => "1") (fun _ => true) (fun _ => none)
    none 0 false "a" [("a", 1)]).2.1 1 (by decide)

/-- C10: `removeById` and `updateById` never resolve with `false`: they
resolve with the literal `true` when an entry with the id was
removed/updated, and with an absent value when no entry with that id
exists. -/
theorem byId_results_never_false {β : Type} (stringify : β → String) (id : String)
    (modifier : β → β) (entries : List (Entry β)) :
    removeById stringify id entries ≠ some false ∧
    updateById stringify id modifier entries ≠ some false ∧
    (removeById stringify id entries = some true ↔ ∃ e ∈ entries, e.1 = id) ∧
    (removeById stringify id entries = none ↔ ∀ e ∈ entries, e.1 ≠ id) ∧
    (updateById stringify id modifier entries = some true ↔ ∃ e ∈ entries, e.1 = id) ∧
    (updateById stringify id modifier entries = none ↔ ∀ e ∈ entries, e.1 ≠ id) := by
  have hrem := removeScan_fst stringify (fun e => e.1 == id) entries 0 "\x7b" ""
  have hupd := updateScan_fst stringify
    (fun e => if e.1 == id then some (modifier e.2) else none) entries 0 "\x7b" ""
  have hcnt : (List.filter (fun e : Entry β => e.1 == id) entries).length = 0
      ↔ ∀ e ∈ entries, e.1 ≠ id := by
    simp [List.length_eq_zero, List.filter_eq_nil_iff]
  have hcnt2 : (List.filter
      (fun e : Entry β => ((if e.1 == id then some (modifier e.2) else none) : Option β).isSome)
        entries).length = 0 ↔ ∀ e ∈ entries, e.1 ≠ id := by
    simp [List.length_eq_zero, List.filter_eq_nil_iff]
  have hr : removeById stringify id entries
      = if (List.filter (fun e : Entry β => e.1 == id) entries).length = 0
        then none else some true := by
    unfold removeById removeResult
    rw [hrem]
    rcases h : (List.filter (fun e : Entry β => e.1 == id) entries).length with _ | k <;>
      simp [h]
  have hu : updateById stringify id modifier entries
      = if (List.filter
          (fun e : Entry β =>
            ((if e.1 == id then some (modifier e.2) else none) : Option β).isSome)
            entries).length = 0
        then none else some true := by
    unfold updateById updateResult
    rw [hupd]
    rcases h : (List.filter
        (fun e : Entry β =>
          ((if e.1 == id then some (modifier e.2) else none) : Option β).isSome)
          entries).length with _ | k <;>
      simp [h]
  have hsame : (List.filter
      (fun e : Entry β =>
        ((if e.1 == id then some (modifier e.2) else none) : Option β).isSome)
        entries).length = 0
      ↔ (List.filter (fun e : Entry β => e.1 == id) entries).length = 0 :=
    hcnt2.trans hcnt.symm
  by_cases h0 : (List.filter (fun e : Entry β => e.1 == id) entries).length = 0
  · have h1 := hsame.mpr h0
    have hall := hcnt.mp h0
    rw [hr, hu]
    simp only [h0, h1, if_pos]
    refine ⟨by simp, by simp, ?_, ?_, ?_, ?_⟩
    · constructor
      · intro h2; exact absurd h2 (by simp)
      · rintro ⟨e, he, heq⟩; exact absurd heq (hall e he)
    · constructor
      · intro _; exact hall
      · intro _; trivial
    · constructor
      · intro h2; exact absurd h2 (by simp)
      · rintro ⟨e, he, heq⟩; exact absurd heq (hall e he)
    · constructor
      · intro _; exact hall
      · intro _; trivial
  · have h1 : ¬ (List.filter
        (fun e : Entry β =>
          ((if e.1 == id then some (modifier e.2) else none) : Option β).isSome)
          entries).length = 0 := fun h2 => h0 (hsame.mp h2)
    have hex : ∃ e ∈ entries, e.1 = id := by
      by_contra hno
      push_neg at hno
      exact h0 (hcnt.mpr hno)
    have hnall : ¬ ∀ e ∈ entries, e.1 ≠ id := fun hall => h0 (hcnt.mpr hall)
    rw [hr, hu]
    simp only [h0, h1, if_neg, not_false_iff]
    refine ⟨by simp, by simp, ?_, ?_, ?_, ?_⟩
    · constructor
      · intro _; exact hex
      · intro _; trivial
    · constructor
      · intro h2; exact absurd h2 (by simp)
      · intro hall; exact absurd hall hnall
    · constructor
      · intro _; exact hex
      · intro _; trivial
    · constructor
      · intro h2; exact absurd h2 (by simp)
      · intro hall; exact absurd hall hnall

/-- Witness for C10: on the one-entry store, `removeById` of the present
id resolves with the literal `true`. -/
theorem byId_results_never_false_check :
    removeById (fun _ : Nat => "1") "a" [("a", 1)] = some true :=
  (byId_results_never_false (fun _ : Nat => "1") "a" (fun d => d) [("a", 1)]).2.2.1.mpr
    ⟨("a", 1), by simp, rfl⟩

/-- C1: if a mutating operation fails at any stage — while reading or
assembling the temp file (a `cb` failure), while writing the temp file
(where the error is not even delivered to the caller), or while renaming
— the store file's content is exactly what it was before the operation;
the store file only ever changes via the rename of the fully written
temporary content of a successful operation.  The same holds for
`clearAll`. -/
theorem mutation_failure_leaves_store_unchanged (ε : Type) (fs fs2 : FS)
    (cb : Option String → Except (JsError ε) String)
    (writeOk renameOk wOk2 rOk2 : Bool) (pw : String) (taf : Option String) :
    (∀ e, (tempFileWriteOperation fs cb writeOk pw renameOk).2 = OpOutcome.rejected e →
      (tempFileWriteOperation fs cb writeOk pw renameOk).1.store = fs.store) ∧
    (∀ e, (tempFileWriteOperation fs cb writeOk pw renameOk).2 = OpOutcome.uncaught e →
      (tempFileWriteOperation fs cb writeOk pw renameOk).1.store = fs.store) ∧
    ((tempFileWriteOperation fs cb writeOk pw renameOk).1.store ≠ fs.store →
      ∃ content, writeOk = true ∧ renameOk = true ∧ cb fs.store = Except.ok content ∧
        (tempFileWriteOperation fs cb writeOk pw renameOk).1.temp = none ∧
        (tempFileWriteOperation fs cb writeOk pw renameOk).1.store = some content ∧
        (tempFileWriteOperation fs cb writeOk pw renameOk).2 = OpOutcome.ok) ∧
    (∀ e, (clearAll ε fs2 wOk2 taf rOk2).2 = OpOutcome.rejected e →
      (clearAll ε fs2 wOk2 taf rOk2).1.store = fs2.store) := by
  unfold tempFileWriteOperation clearAll
  rcases writeOk <;> rcases renameOk <;> rcases wOk2 <;> rcases rOk2 <;>
    rcases hcb : cb fs.store with e0 | c0 <;>
    simp [hcb]

/-- Witness for C1: a callback failure leaves the store content intact. -/
theorem mutation_failure_leaves_store_unchanged_check :
    (tempFileWriteOperation (FS.mk (some "\x7b\x7d") none)
        (fun _ => (Except.error (JsError.user 0) : Except (JsError Nat) String))
        true "" true).1.store
      = some "\x7b\x7d" :=
  (mutation_failure_leaves_store_unchanged Nat (FS.mk (some "\x7b\x7d") none)
    (FS.mk (some "\x7b\x7d") none) (fun _ => Except.error (JsError.user 0))
    true true true true "" none).1 (JsError.user 0) rfl

/-- C2: the task queue runs submitted tasks strictly in submission order
and never concurrently — the second task starts from the state produced
by the first — and in particular submitting `add(x)` immediately followed
by `remove(matcher-of-x)` on one handle yields a store that contains no
entry decoding to `x`, because the remove observes the add's effect. -/
theorem queue_fifo_add_then_remove (β : Type) [DecidableEq β] (parse : String → β)
    (stringify : β → String) (hrt : ∀ a, parse (stringify a) = a)
    (store : List (String × String)) (x : β) (newId : String) :
    (∀ (σ ρ : Type) (t1 t2 : σ → σ × ρ) (s : σ),
      processQueue [t1, t2] s = ((t2 (t1 s).1).1, [(t1 s).2, (t2 (t1 s).1).2])) ∧
    (∀ p ∈ (processQueue
        [addTaskFn stringify [newId] [x],
         removeTaskFn parse stringify (fun e => decide (e.2 = x))] store).1,
      parse p.2 ≠ x) := by
  constructor
  · intro σ ρ t1 t2 s
    simp [processQueue]
  · intro p hp
    have hq : (processQueue
        [addTaskFn stringify [newId] [x],
         removeTaskFn parse stringify (fun e => decide (e.2 = x))] store).1
        = removeKept stringify (fun e => decide (e.2 = x))
            (parseStore parse (addPairs stringify [newId] [x] store)) := by
      simp [processQueue, addTaskFn, removeTaskFn]
    rw [hq] at hp
    rcases removeKept_mem stringify (fun e => decide (e.2 = x)) _ p hp
      with ⟨e, hmem, hm, hpe⟩
    have hne : e.2 ≠ x := by simpa using hm
    have hp2 : p.2 = stringify e.2 := by rw [hpe]
    rw [hp2, hrt e.2]
    exact hne

/-- Witness for C2: after enqueueing `add(true)` then
`remove(data = true)` on a concrete store, the added pair is gone. -/
theorem queue_fifo_add_then_remove_check :
    ("n", "t") ∉ (processQueue
      [addTaskFn (fun b : Bool => cond b "t" "f") ["n"] [true],
       removeTaskFn (fun s => s == "t") (fun b : Bool => cond b "t" "f")
         (fun e => decide (e.2 = true))] [("a", "f")]).1 :=
  fun h =>
    ((queue_fifo_add_then_remove Bool (fun s => s == "t") (fun b : Bool => cond b "t" "f")
      (by decide) [("a", "f")] true "n").2 ("n", "t") h) (by decide)

/-- C4: `add` pairs one fresh id per record positionally, in input order:
when the generated ids are pairwise distinct and fresh for the store, a
subsequent `findById(ids[i])` returns the decoded form of the record at
index `i`; in particular `findById(await addOne(r))` decodes to a value
equal to `r` whenever the parse function inverts the configured
serializer on `r`. -/
theorem add_id_alignment_roundtrip (β : Type) (parse : String → β)
    (stringify : β → String) (store : List (String × String)) (ids : List String)
    (records : List β) (hnd : ids.Nodup)
    (hfresh : ∀ id ∈ ids, ∀ p ∈ store, p.1 ≠ id) :
    (∀ (i : Nat) (hi : i < ids.length) (hir : i < records.length),
      findById (ids.get ⟨i, hi⟩) (parseStore parse (addPairs stringify ids records store))
        = some (parse (stringify (records.get ⟨i, hir⟩)))) ∧
    (∀ (r : β) (id0 : String), parse (stringify r) = r →
      (∀ p ∈ store, p.1 ≠ id0) →
      findById id0 (parseStore parse (addPairs stringify [id0] [r] store)) = some r) := by
  constructor
  · intro i hi hir
    exact findById_addPairs parse stringify store ids records i hi hir hnd hfresh
  · intro r id0 hrt hf0
    have h := findById_addPairs parse stringify store [id0] [r] 0 (by simp) (by simp)
      (by simp)
      (by
        intro id hid p hp
        simp at hid
        subst hid
        exact hf0 p hp)
    simpa [hrt] using h

/-- Witness for C4: adding one record to the empty store and reading it
back by its fresh id. -/
theorem add_id_alignment_roundtrip_check :
    findById "i" (parseStore (fun _ => (7:Nat)) (addPairs (fun _ => "v") ["i"] [7] []))
      = some 7 :=
  (add_id_alignment_roundtrip Nat (fun _ => (7:Nat)) (fun _ => "v") [] ["i"] [7]
    (by simp) (by simp)).1 0 (by simp) (by simp)

/-- Counterexample to C7: a serializer failure does *not* propagate as
the very same error value — `#stringify` catches it and throws a fresh
`SERIALIZATION_ERROR` tagged `FlickerError` instead.  Here the serializer
throws the string "boom" and the caller observes the tagged error, not
the thrown value. -/
theorem serializer_error_is_wrapped :
    stringifyWrapped (fun _ : Unit => (Except.error "boom" : Except String String)) ()
      = Except.error (JsError.flicker FlickerErrorCode.SERIALIZATION_ERROR) ∧
    stringifyWrapped (fun _ : Unit => (Except.error "boom" : Except String String)) ()
      ≠ Except.error (JsError.user "boom") :=
  ⟨rfl, by simp [stringifyWrapped]⟩

/-- C7 (amended): a matcher/modifier callback that throws during an
operation aborts the stream immediately and the very same error value
propagates unchanged through `#readStreamParsing` and
`#tempFileWriteOperation` (after temp-file cleanup, store untouched);
a serializer failure likewise aborts the operation, but it surfaces as a
`SERIALIZATION_ERROR` tagged `FlickerError` replacing the thrown value. -/
theorem callback_error_propagation :
    (∀ (β ε : Type) (cb : Entry β → Except (JsError ε) Bool)
        (l1 l2 : List (Entry β)) (e : Entry β) (u : JsError ε),
      (∀ a ∈ l1, cb a = Except.ok true) → cb e = Except.error u →
      streamEntries cb (l1 ++ e :: l2) = Except.error u) ∧
    (∀ (ε : Type) (fs : FS) (cb2 : Option String → Except (JsError ε) String)
        (u : JsError ε) (pw : String) (renameOk : Bool),
      cb2 fs.store = Except.error u →
      (tempFileWriteOperation fs cb2 true pw renameOk).2 = OpOutcome.rejected u ∧
      (tempFileWriteOperation fs cb2 true pw renameOk).1.temp = none ∧
      (tempFileWriteOperation fs cb2 true pw renameOk).1.store = fs.store) ∧
    (∀ (β ε : Type) (sfn : β → Except ε String) (d : β) (e0 : ε),
      sfn d = Except.error e0 →
      stringifyWrapped sfn d
        = Except.error (JsError.flicker FlickerErrorCode.SERIALIZATION_ERROR)) := by
  refine ⟨?_, ?_, ?_⟩
  · intro β ε cb l1 l2 e u hpre hcb
    induction l1 with
    | nil => simp [streamEntries, hcb]
    | cons a rest ih =>
      have ha := hpre a (by simp)
      simp only [List.cons_append, streamEntries, ha]
      exact ih fun a2 h2 => hpre a2 (List.mem_cons_of_mem a h2)
  · intro ε fs cb2 u pw renameOk hcb
    unfold tempFileWriteOperation
    simp [hcb]
  · intro β ε sfn d e0 hs
    unfold stringifyWrapped
    rw [hs]

/-- Witness for C7 (amended): a user error thrown by the callback reaches
the caller of the mutating operation as the very same value. -/
theorem callback_error_propagation_check :
    (tempFileWriteOperation (FS.mk (some "\x7b\x7d") none)
        (fun _ => (Except.error (JsError.user 3) : Except (JsError Nat) String))
        true "" true).2
      = OpOutcome.rejected (JsError.user 3) :=
  (callback_error_propagation.2.1 Nat (FS.mk (some "\x7b\x7d") none)
    (fun _ => Except.error (JsError.user 3)) (JsError.user 3) "" true rfl).1

/-- Counterexample to C8: when the final rename fails, the mutating
operation completes in the failed state with the fully written temporary
file still existing — it is not deleted before the error surfaces. -/
theorem temp_file_survives_rename_failure :
    (tempFileWriteOperation (FS.mk (some "\x7b\x7d") none)
        (fun _ => (Except.ok "\x7b\"a\":1\x7d" : Except (JsError Unit) String))
        true "" false).2
      = OpOutcome.rejected (JsError.flicker FlickerErrorCode.TEMP_FILE_RENAME_ERROR) ∧
    (tempFileWriteOperation (FS.mk (some "\x7b\x7d") none)
        (fun _ => (Except.ok "\x7b\"a\":1\x7d" : Except (JsError Unit) String))
        true "" false).1.temp
      = some "\x7b\"a\":1\x7d" :=
  ⟨rfl, rfl⟩

/-- C8 (amended): the temporary file does not exist after a mutating
operation resolves successfully, nor after a read or matcher/modifier/
serializer callback failure (the catch block unlinks it before the error
surfaces); but a staging-file write failure leaves the operation
unsettled with the temp file and whatever bytes were flushed to it left
behind (the unlink is unreachable from the stream's `'error'` listener),
and a rename failure fails the operation with the fully written
temporary file left behind. -/
theorem temp_file_cleanup_policy (ε : Type) (fs fs2 : FS)
    (cb : Option String → Except (JsError ε) String)
    (writeOk renameOk wOk2 rOk2 : Bool) (pw : String) (taf : Option String) :
    ((tempFileWriteOperation fs cb writeOk pw renameOk).2 = OpOutcome.ok →
      (tempFileWriteOperation fs cb writeOk pw renameOk).1.temp = none) ∧
    (∀ e, writeOk = true → cb fs.store = Except.error e →
      (tempFileWriteOperation fs cb writeOk pw renameOk).1.temp = none) ∧
    (writeOk = false →
      (tempFileWriteOperation fs cb writeOk pw renameOk).1.temp = some pw ∧
      (tempFileWriteOperation fs cb writeOk pw renameOk).2
        = OpOutcome.uncaught (JsError.flicker FlickerErrorCode.TEMP_FILE_WRITE_ERROR)) ∧
    (∀ content, writeOk = true → cb fs.store = Except.ok content → renameOk = false →
      (tempFileWriteOperation fs cb writeOk pw renameOk).1.temp = some content) ∧
    ((clearAll ε fs2 wOk2 taf rOk2).2 = OpOutcome.ok →
      (clearAll ε fs2 wOk2 taf rOk2).1.temp = none) := by
  unfold tempFileWriteOperation clearAll
  rcases writeOk <;> rcases renameOk <;> rcases wOk2 <;> rcases rOk2 <;>
    rcases hcb : cb fs.store with e0 | c0 <;>
    simp [hcb]

/-- Witness for C8 (amended): after a callback failure the temporary file
is gone. -/
theorem temp_file_cleanup_policy_check :
    (tempFileWriteOperation (FS.mk (some "\x7b\x7d") none)
        (fun _ => (Except.error (JsError.user 0) : Except (JsError Nat) String))
        true "" true).1.temp
      = none :=
  (temp_file_cleanup_policy Nat (FS.mk (some "\x7b\x7d") none)
    (FS.mk (some "\x7b\x7d") none) (fun _ => Except.error (JsError.user 0))
    true true true true "" none).2.1 (JsError.user 0) rfl rfl

end Flicker
